import Mathlib

/-!
Verification development for the dataset-curation pipeline in
`topic-4_deep-learning-protein-structures/day_2/make_dataset.py`.

The pandas table manipulated by `select_ids` is embedded as a list of rows;
the structural objects manipulated by `save_system` are embedded as explicit
records, with the in-place mutations of `Structure.filter(..., copy=False)`
made visible by threading the system state; the filesystem is a record of
directory and file paths; fallible operations return `Except`.
-/

namespace MakeDataset

/-- One row of the joined index/metadata table built in `select_ids`
(`index = loader.index.merge(loader.metadata, on="id", how="left")`).
`resolution` holds the value after `astype("float32")`, with `⊤` standing
for a missing (NaN) entry, which pandas sorts last in an ascending sort.
The ECOD name columns are nullable (`None`/NaN), which matters for the
behaviour of the domain-overlap filter on malformed rows. -/
structure Row where
  id : String
  cluster_id : String
  cluster_id_L : String
  cluster_id_R : String
  length1 : Nat
  length2 : Nat
  resolution : WithTop ℚ
  label : String
  method : String
  uniprot_L : String
  uniprot_R : String
  ECOD_names_L : Option String
  ECOD_names_R : Option String
deriving DecidableEq

/-- The keyword arguments of `select_ids`, with the source defaults. -/
structure Config where
  max_per_cluster : Nat := 2
  max_length : Nat := 1024
  max_length_per_monomer : Nat := 512
  min_length_per_monomer : Nat := 50
deriving DecidableEq

/-- Splitting a character list at every comma, with Python's
`str.split(",")` semantics: the empty input yields one empty field, and
every comma opens a new field. -/
def splitComma : List Char → List (List Char)
  | [] => [[]]
  | c :: rest =>
    if c = ',' then [] :: splitComma rest
    else
      match splitComma rest with
      | [] => [[c]]
      | g :: gs => (c :: g) :: gs

/-- `series.str.split(",").apply(set)` on one non-null cell:
the comma-delimited field parsed into a set of names. -/
def ecodSet (s : String) : Finset String :=
  ((splitComma s.data).map String.mk).toFinset

instance {ε α : Type} [DecidableEq ε] [DecidableEq α] : DecidableEq (Except ε α) :=
  fun a b =>
    match a, b with
    | .ok x, .ok y =>
      if h : x = y then isTrue (by rw [h]) else isFalse (by simp [h])
    | .error e, .error e' =>
      if h : e = e' then isTrue (by rw [h]) else isFalse (by simp [h])
    | .ok _, .error _ => isFalse (by simp)
    | .error _, .ok _ => isFalse (by simp)

/-- The conjunction of the boolean masks on lines 34-44 of
`make_dataset.py`, evaluated on one row whose ECOD cells are non-null
(`sL`, `sR` are the cell contents).  `length` is the derived column
`length1 + length2`; the final mask keeps the row when the intersection
of the two ECOD name sets is empty (`~(... & ...).astype(bool)`). -/
def rowPass (cfg : Config) (r : Row) (sL sR : String) : Bool :=
  decide (r.length1 + r.length2 ≤ cfg.max_length) &&
  decide (r.length1 ≤ cfg.max_length_per_monomer) &&
  decide (r.length2 ≤ cfg.max_length_per_monomer) &&
  decide (r.length1 ≥ cfg.min_length_per_monomer) &&
  decide (r.length2 ≥ cfg.min_length_per_monomer) &&
  (r.label == "BIO") &&
  (r.method == "X-RAY DIFFRACTION") &&
  (r.cluster_id_L != r.cluster_id_R) &&
  (r.uniprot_R != r.uniprot_L) &&
  decide (ecodSet sR ∩ ecodSet sL = ∅)

/-- Evaluation of the row-level filter on one row.  A null (NaN) ECOD cell
makes `.apply(set)` raise a `TypeError` (`set(nan)` is not iterable), which
is modelled as `Except.error ()`. -/
def rowFilterE (cfg : Config) (r : Row) : Except Unit Bool :=
  match r.ECOD_names_R, r.ECOD_names_L with
  | some sR, some sL => .ok (rowPass cfg r sL sR)
  | _, _ => .error ()

/-- The boolean-mask filtering step `index = index[...]` of `select_ids`:
keeps the rows whose mask is true; raises (propagating the `TypeError`)
as soon as the table contains any row with a null ECOD cell, because the
mask for the whole column is built before any row is selected. -/
def filterTable (cfg : Config) : List Row → Except Unit (List Row)
  | [] => .ok []
  | r :: rs => do
    let b ← rowFilterE cfg r
    let rest ← filterTable cfg rs
    pure (if b then r :: rest else rest)

/-- A row on which building the ECOD-overlap mask raises: at least one of
the two ECOD cells is null. -/
def ecodBad (r : Row) : Bool :=
  r.ECOD_names_R.isNone || r.ECOD_names_L.isNone

/-- The boolean the row-level mask assigns to a row, with `false` for a row
whose evaluation raises (used only to describe the output of `filterTable`
on tables where no row raises). -/
def okRow (cfg : Config) (r : Row) : Bool :=
  match rowFilterE cfg r with
  | .ok b => b
  | .error _ => false

/-- The sort key of `index.sort_values(["resolution", "id"], ascending=[True, True])`. -/
def sortKey (r : Row) : WithTop ℚ × String :=
  (r.resolution, r.id)

/-- Lexicographic comparison on `(resolution, id)`: the (non-strict) order
realised by the two-key ascending sort.  Identifiers are compared the way
Python compares strings: lexicographically on the list of code points. -/
def keyLE (a b : Row) : Prop :=
  a.resolution < b.resolution ∨ (a.resolution = b.resolution ∧ a.id.data ≤ b.id.data)

/-- Strict lexicographic comparison on `(resolution, id)`. -/
def keyLT (a b : Row) : Prop :=
  a.resolution < b.resolution ∨ (a.resolution = b.resolution ∧ a.id.data < b.id.data)

instance : DecidableRel keyLE := fun a b =>
  inferInstanceAs (Decidable (_ ∨ _))

instance : DecidableRel keyLT := fun a b =>
  inferInstanceAs (Decidable (_ ∨ _))

instance : IsTotal Row keyLE where
  total a b := by
    rcases lt_trichotomy a.resolution b.resolution with h | h | h
    · exact Or.inl (Or.inl h)
    · rcases le_total a.id.data b.id.data with h' | h'
      · exact Or.inl (Or.inr ⟨h, h'⟩)
      · exact Or.inr (Or.inr ⟨h.symm, h'⟩)
    · exact Or.inr (Or.inl h)

instance : IsTrans Row keyLE where
  trans a b c hab hbc := by
    rcases hab with h1 | ⟨h1, h1'⟩ <;> rcases hbc with h2 | ⟨h2, h2'⟩
    · exact Or.inl (h1.trans h2)
    · exact Or.inl (h2 ▸ h1)
    · exact Or.inl (h1 ▸ h2)
    · exact Or.inr ⟨h1.trans h2, h1'.trans h2'⟩

instance : IsAntisymm Row keyLT where
  antisymm a b hab hba := by
    exfalso
    rcases hab with h1 | ⟨h1, h1'⟩ <;> rcases hba with h2 | ⟨h2, h2'⟩
    · exact absurd h2 (not_lt_of_lt h1)
    · exact absurd h1 (h2 ▸ lt_irrefl _)
    · exact absurd h2 (h1 ▸ lt_irrefl _)
    · exact absurd h2' (not_lt_of_lt h1')

/-- `index.sort_values(["resolution", "id"], ascending=[True, True])`:
the table reordered ascending by the lexicographic `(resolution, id)` key. -/
def sortRows (l : List Row) : List Row :=
  l.insertionSort keyLE

/-- `groupby("cluster_id").head(K)` on an already-sorted frame: a row is kept
when fewer than `K` earlier rows of the same `cluster_id` have been seen.
`cnt` carries the running per-cluster count. -/
def headPerCluster (K : Nat) (cnt : String → Nat) : List Row → List Row
  | [] => []
  | r :: rs =>
    if cnt r.cluster_id < K then
      r :: headPerCluster K (fun c => if c = r.cluster_id then cnt c + 1 else cnt c) rs
    else
      headPerCluster K (fun c => if c = r.cluster_id then cnt c + 1 else cnt c) rs

/-- The cluster-selection step of `select_ids` applied to the filtered table:
sort by `(resolution, id)` and keep the first `K` rows of every
`cluster_id` group. -/
def clusterSelect (K : Nat) (f : List Row) : List Row :=
  headPerCluster K (fun _ => 0) (sortRows f)

/-- `list(set(... .head(max_per_cluster)["id"]))`: the selected identifiers
of one split, as a set. -/
def selectedIdSet (K : Nat) (f : List Row) : Finset String :=
  ((clusterSelect K f).map (·.id)).toFinset

/-- The per-split body of `select_ids` on the joined table: row-level
filtering followed by cluster selection, propagating the error raised on a
null ECOD cell. -/
def selectIds (cfg : Config) (tbl : List Row) : Except Unit (Finset String) :=
  (filterTable cfg tbl).map (selectedIdSet cfg.max_per_cluster)

/-- A molecular structure object (`pinder` `Structure`): its derived
identifier and its atom table, abstracted to the per-atom `element` column,
which is all `save_system` inspects. -/
structure PStructure where
  pinder_id : String
  atoms : List String
deriving DecidableEq

/-- `struc.filter("element", mask=["H"], negate=True, copy=False)`:
keep the atoms whose element is not `"H"`.  `copy=False` mutates the
structure in place; the mutation is made explicit by substituting the
returned value for the original wherever the original object is shared. -/
def removeH (s : PStructure) : PStructure :=
  { s with atoms := s.atoms.filter (fun e => e != "H") }

/-- The slice of a loaded `PinderSystem` that `save_system` touches: the
native structure and the four monomer substructures, the predicted pair
being nullable. -/
structure PinderSystem where
  native : PStructure
  holo_receptor : PStructure
  holo_ligand : PStructure
  pred_receptor : Option PStructure
  pred_ligand : Option PStructure
deriving DecidableEq

/-- The filesystem visible to the pipeline: the set of existing directories
and the set of written files, each named by its path components. -/
structure FS where
  dirs : Finset (List String)
  files : Finset (List String)
deriving DecidableEq

/-- `pathlib.Path.mkdir(parents=..., exist_ok=...)` on the modelled
filesystem: an existing target raises `FileExistsError` unless `exist_ok`;
a missing parent raises `FileNotFoundError` unless `parents`; otherwise the
directory and (with `parents`) its ancestors are created. -/
def mkdir (parents exist_ok : Bool) (fs : FS) (p : List String) : Except String FS :=
  if p ∈ fs.dirs then
    if exist_ok then .ok fs else .error "FileExistsError"
  else if parents = false ∧ p.dropLast ≠ [] ∧ p.dropLast ∉ fs.dirs then
    .error "FileNotFoundError"
  else
    .ok { fs with dirs := fs.dirs ∪ (p.inits.filter (fun q => q ≠ [])).toFinset }

/-- `struc.to_pdb(path)`: record the written file. -/
def to_pdb (fs : FS) (p : List String) : FS :=
  { fs with files := insert p fs.files }

/-- The dictionary `row` built by `save_system`, as collected into the final
dataframe: `pred_pinder_id` and `split` are absent keys (NaN columns) when
not set. -/
structure RowOut where
  pinder_id : String
  pred_pinder_id : Option String := none
  split : Option String := none
deriving DecidableEq

/-- What one call of `save_system` produces: the returned row, the system
object after the in-place mutations, and the filesystem after the writes. -/
structure SaveResult where
  row : RowOut
  system : PinderSystem
  fs : FS
deriving DecidableEq

/-- Modelled from the spec: `PinderSystem.create_complex(receptor, ligand,
renumber_residues=True, remove_differing_atoms=True)` is the external
complex-assembly capability (its geometry is out of scope); it is an
arbitrary function `mk` from the two input structures to the assembled
complex with its derived output identifier. -/
def save_system (mk : PStructure → PStructure → PStructure)
    (system : PinderSystem) (folder : List String) (fs : FS) :
    Except String SaveResult := do
  let row : RowOut := { pinder_id := system.native.pinder_id }
  let system_folder := folder ++ [system.native.pinder_id]
  let fs ← mkdir true true fs system_folder
  let chain1_struc := removeH system.holo_receptor
  let chain2_struc := removeH system.holo_ligand
  let system := { system with
    holo_receptor := chain1_struc, holo_ligand := chain2_struc }
  let chain12_struc := mk chain1_struc chain2_struc
  let fs := to_pdb fs (system_folder ++ [chain12_struc.pinder_id ++ ".pdb"])
  match system.pred_receptor with
  | none => return { row := row, system := system, fs := fs }
  | some c1 =>
    let chain1_struc := removeH c1
    let system := { system with pred_receptor := some chain1_struc }
    match system.pred_ligand with
    | none => return { row := row, system := system, fs := fs }
    | some c2 =>
      let chain2_struc := removeH c2
      let system := { system with pred_ligand := some chain2_struc }
      let chain12_struc_pred := mk chain1_struc chain2_struc
      let row := { row with pred_pinder_id := some chain12_struc_pred.pinder_id }
      let fs := to_pdb fs (system_folder ++ [chain12_struc_pred.pinder_id ++ ".pdb"])
      return { row := row, system := system, fs := fs }

/-- The file path of the native complex written by `save_system`:
`<folder>/<native id>/<native complex id>.pdb`. -/
def nativePdbPath (mk : PStructure → PStructure → PStructure)
    (system : PinderSystem) (folder : List String) : List String :=
  folder ++ [system.native.pinder_id] ++
    [(mk (removeH system.holo_receptor) (removeH system.holo_ligand)).pinder_id ++ ".pdb"]

/-- The effect on the filesystem of `mkdir(parents=True, exist_ok=True)`:
create the directory and its ancestors if absent, otherwise do nothing. -/
def mkdirP (fs : FS) (p : List String) : FS :=
  if p ∈ fs.dirs then fs
  else { fs with dirs := fs.dirs ∪ (p.inits.filter (fun q => q ≠ [])).toFinset }

/-- The value `save_system` computes, written as a total function: the
native complex is always assembled and written; the predicted complex is
assembled and written only when both predicted substructures are present;
the holo substructures, and the predicted receptor as soon as it is found
present, are dehydrogenated in place. -/
def saveResultOf (mk : PStructure → PStructure → PStructure)
    (system : PinderSystem) (folder : List String) (fs : FS) : SaveResult :=
  let sf := folder ++ [system.native.pinder_id]
  let fs1 := to_pdb (mkdirP fs sf)
    (sf ++ [(mk (removeH system.holo_receptor) (removeH system.holo_ligand)).pinder_id ++ ".pdb"])
  let sys1 : PinderSystem := { system with
    holo_receptor := removeH system.holo_receptor,
    holo_ligand := removeH system.holo_ligand }
  match system.pred_receptor, system.pred_ligand with
  | none, _ =>
    { row := { pinder_id := system.native.pinder_id }, system := sys1, fs := fs1 }
  | some c1, none =>
    { row := { pinder_id := system.native.pinder_id },
      system := { sys1 with pred_receptor := some (removeH c1) }, fs := fs1 }
  | some c1, some c2 =>
    { row := { pinder_id := system.native.pinder_id,
               pred_pinder_id := some (mk (removeH c1) (removeH c2)).pinder_id },
      system := { sys1 with pred_receptor := some (removeH c1),
                            pred_ligand := some (removeH c2) },
      fs := to_pdb fs1 (sf ++ [(mk (removeH c1) (removeH c2)).pinder_id ++ ".pdb"]) }

/-- One element of the `tasks` list of `main`: a selected identifier and its
split name (the shared output root is passed separately). -/
structure Task where
  id : String
  key : String
deriving DecidableEq

/-- `process_id((id, key, data_dir))`: load the system for the identifier
(the external loading capability `load`, which may raise), run `save_system`
into `data_dir / key`, and tag the row with the split.  The filesystem `fs`
is the worker's view of the shared output tree. -/
def process_id (load : String → Except String PinderSystem)
    (mk : PStructure → PStructure → PStructure)
    (fs : FS) (data_dir : List String) (t : Task) : Except String RowOut := do
  let system ← load t.id
  let res ← save_system mk system (data_dir ++ [t.key]) fs
  pure { res.row with split := some t.key }

/-- `rows = list(tqdm(pool.imap(process_id, tasks), ...))`:
`multiprocessing.Pool.imap` yields results in task order; an exception
raised while processing a task is re-raised in the parent when that task's
result is consumed, so the first failing task (in task order) aborts the
collection. -/
def imapCollect (f : Task → Except String RowOut) :
    List Task → Except String (List RowOut)
  | [] => .ok []
  | t :: ts => do
    let r ← f t
    let rs ← imapCollect f ts
    pure (r :: rs)

/-- The `tasks` list comprehension of `main`: one task per selected
identifier per split, in split order. -/
def tasksOf (split_ids : List (String × List String)) : List Task :=
  split_ids.flatMap (fun p => p.2.map (fun i => ⟨i, p.1⟩))

/-- The string values carried by one manifest row, in column order
(`pinder_id`, then `pred_pinder_id` when present, then `split` when
present). -/
def rowValues (r : RowOut) : List String :=
  [r.pinder_id] ++ r.pred_pinder_id.toList ++ r.split.toList

/-! ### Concrete fixtures

Small concrete instances used to evaluate the definitions on explicit
inputs (witnesses and counterexamples). -/

/-- A well-formed candidate row that passes the row-level filter. -/
def row1 : Row :=
  { id := "A", cluster_id := "C1", cluster_id_L := "x", cluster_id_R := "y",
    length1 := 100, length2 := 100, resolution := ((2 : ℚ) : WithTop ℚ),
    label := "BIO", method := "X-RAY DIFFRACTION",
    uniprot_L := "u1", uniprot_R := "u2",
    ECOD_names_L := some "d1,d2", ECOD_names_R := some "d3" }

/-- Same cluster as `row1`, better resolution. -/
def row2 : Row := { row1 with id := "B", resolution := ((1 : ℚ) : WithTop ℚ) }

/-- Same cluster as `row1`, worst resolution (dropped when `K = 2`). -/
def row3 : Row := { row1 with id := "C", resolution := ((3 : ℚ) : WithTop ℚ) }

/-- A second cluster. -/
def row4 : Row := { row1 with id := "D", cluster_id := "C2" }

/-- A row with a null (NaN) left ECOD cell. -/
def rowNull : Row := { row1 with id := "N", ECOD_names_L := none }

/-- A concrete assembly oracle: the complex identifier concatenates the two
input identifiers. -/
def mk0 : PStructure → PStructure → PStructure := fun r l =>
  { pinder_id := r.pinder_id ++ "--" ++ l.pinder_id, atoms := r.atoms ++ l.atoms }

/-- An empty filesystem. -/
def fs0 : FS := { dirs := ∅, files := ∅ }

/-- A system with both predicted substructures present. -/
def sysBoth : PinderSystem :=
  { native := { pinder_id := "cand1", atoms := [] },
    holo_receptor := { pinder_id := "R", atoms := ["C", "H", "N"] },
    holo_ligand := { pinder_id := "L", atoms := ["H", "O"] },
    pred_receptor := some { pinder_id := "PR", atoms := ["C", "H"] },
    pred_ligand := some { pinder_id := "PL", atoms := ["H", "S"] } }

/-- A system whose predicted ligand is unavailable. -/
def sysNoPredL : PinderSystem := { sysBoth with pred_ligand := none }

/-- A system with no predicted substructures at all. -/
def sysNoPred : PinderSystem :=
  { sysBoth with pred_receptor := none, pred_ligand := none }

/-- A loading oracle whose native structure carries the requested
identifier. -/
def load0 : String → Except String PinderSystem := fun i =>
  .ok { sysBoth with native := { pinder_id := i, atoms := [] } }

/-- A loading oracle that raises on every identifier. -/
def loadBoom : String → Except String PinderSystem := fun _ => .error "boom"

/-- A concrete task. -/
def task1 : Task := ⟨"id1", "train"⟩

/-- A concrete `split_ids` dictionary: two splits, three identifiers. -/
def splitIds0 : List (String × List String) :=
  [("train", ["id1", "id2"]), ("val", ["id3"])]

/-- The manifest rows the concrete run of the pool produces on
`splitIds0` with `load0`/`mk0`. -/
def rows0 : List RowOut :=
  [{ pinder_id := "id1", pred_pinder_id := some "PR--PL", split := some "train" },
   { pinder_id := "id2", pred_pinder_id := some "PR--PL", split := some "train" },
   { pinder_id := "id3", pred_pinder_id := some "PR--PL", split := some "val" }]

/-- The values of the manifest row produced by one `save_system` call (the
raised message when the call raises). -/
def savedRowValues (mk : PStructure → PStructure → PStructure)
    (sys : PinderSystem) (folder : List String) (fs : FS) : List String :=
  match save_system mk sys folder fs with
  | .ok res => rowValues res.row
  | .error e => [e]

/-! ### Supporting lemmas -/

theorem mkdir_parents_exist_ok (fs : FS) (p : List String) :
    mkdir true true fs p = .ok (mkdirP fs p) := by
  unfold mkdir mkdirP
  split
  · simp
  · simp

theorem save_system_run (mk : PStructure → PStructure → PStructure)
    (system : PinderSystem) (folder : List String) (fs : FS) :
    save_system mk system folder fs = .ok (saveResultOf mk system folder fs) := by
  obtain ⟨nat, hr, hl, pr, pl⟩ := system
  cases pr <;> cases pl <;>
    simp [save_system, saveResultOf, mkdir_parents_exist_ok, bind, Except.bind,
      pure, Except.pure]

theorem rowFilterE_eq_error (cfg : Config) (r : Row) :
    rowFilterE cfg r = .error () ↔ ecodBad r = true := by
  unfold rowFilterE ecodBad
  cases r.ECOD_names_R <;> cases r.ECOD_names_L <;> simp

theorem rowFilterE_of_not_bad (cfg : Config) (r : Row) (h : ecodBad r = false) :
    rowFilterE cfg r = .ok (okRow cfg r) := by
  unfold ecodBad at h
  unfold rowFilterE okRow
  cases hR : r.ECOD_names_R <;> cases hL : r.ECOD_names_L <;>
    simp_all [rowFilterE, hR, hL]

theorem filterTable_eq (cfg : Config) (tbl : List Row) :
    filterTable cfg tbl =
      if tbl.any ecodBad then .error () else .ok (tbl.filter (okRow cfg)) := by
  induction tbl with
  | nil => simp [filterTable]
  | cons r rs ih =>
    by_cases hb : ecodBad r = true
    · have he : rowFilterE cfg r = .error () := (rowFilterE_eq_error cfg r).2 hb
      simp [filterTable, he, bind, Except.bind, hb]
    · have hb' : ecodBad r = false := by simpa using hb
      have he : rowFilterE cfg r = .ok (okRow cfg r) := rowFilterE_of_not_bad cfg r hb'
      by_cases ha : rs.any ecodBad = true
      · simp [filterTable, he, bind, Except.bind, ih, ha, hb', List.any_cons]
      · have ha' : rs.any ecodBad = false := by simpa using ha
        simp only [filterTable, he, bind, Except.bind, ih, ha', if_false,
          List.any_cons, hb', Bool.false_or, pure, Except.pure, List.filter_cons]
        by_cases ho : okRow cfg r = true <;> simp [ho]

theorem keyLT_irrefl (a : Row) : ¬ keyLT a a := by
  unfold keyLT
  simp

theorem keyLT_asymm {a b : Row} (h1 : keyLT a b) (h2 : keyLT b a) : False := by
  rcases h1 with h1 | ⟨h1, h1'⟩ <;> rcases h2 with h2 | ⟨h2, h2'⟩
  · exact absurd h2 (not_lt_of_lt h1)
  · exact absurd h1 (h2 ▸ lt_irrefl _)
  · exact absurd h2 (h1 ▸ lt_irrefl _)
  · exact absurd h2' (not_lt_of_lt h1')

theorem sortRows_perm (f : List Row) : List.Perm (sortRows f) f :=
  List.perm_insertionSort keyLE f

theorem sortRows_sorted_lt (f : List Row)
    (hids : f.Pairwise (fun a b => a.id ≠ b.id)) :
    (sortRows f).Sorted keyLT := by
  have hperm : List.Perm (sortRows f) f := sortRows_perm f
  have hpw : (sortRows f).Pairwise (fun a b => a.id ≠ b.id) :=
    (hperm.pairwise_iff (fun h => h.symm)).2 hids
  have hsorted : (sortRows f).Sorted keyLE := List.sorted_insertionSort keyLE f
  exact List.Pairwise.imp₂ (fun a b hle hne => by
    rcases hle with h | ⟨h, h'⟩
    · exact Or.inl h
    · exact Or.inr ⟨h, lt_of_le_of_ne h'
        (fun hd => hne (congrArg String.mk hd))⟩) hsorted hpw

theorem headPerCluster_filter (K : Nat) (c : String) :
    ∀ (S : List Row) (cnt : String → Nat),
      (headPerCluster K cnt S).filter (fun s => s.cluster_id == c) =
        (S.filter (fun s => s.cluster_id == c)).take (K - cnt c) := by
  intro S
  induction S with
  | nil => intro cnt; simp [headPerCluster]
  | cons r rs ih =>
    intro cnt
    by_cases hc : r.cluster_id = c
    · subst hc
      by_cases hK : cnt r.cluster_id < K
      · have hs : K - cnt r.cluster_id = (K - (cnt r.cluster_id + 1)) + 1 := by omega
        simp only [headPerCluster, hK, if_true, List.filter_cons, beq_self_eq_true,
          if_true, ih, if_pos rfl, hs, List.take_succ_cons]
      · have hz : K - cnt r.cluster_id = 0 := by omega
        have hz' : K - (cnt r.cluster_id + 1) = 0 := by omega
        simp only [headPerCluster, hK, if_false, ih, if_pos rfl, List.filter_cons,
          beq_self_eq_true, if_true, hz, hz', List.take_zero]
    · have hcnt : (if c = r.cluster_id then cnt c + 1 else cnt c) = cnt c := by
        rw [if_neg (fun h => hc h.symm)]
      have hne : (r.cluster_id == c) = false := by simp [hc]
      by_cases hK : cnt r.cluster_id < K <;>
        simp [headPerCluster, hK, List.filter_cons, hne, ih, hcnt]

theorem mem_take_of_sorted :
    ∀ (G : List Row), G.Sorted keyLT → ∀ (K : Nat) (r : Row),
      (r ∈ G.take K ↔ r ∈ G ∧ G.countP (fun s => decide (keyLT s r)) < K) := by
  intro G
  induction G with
  | nil => simp
  | cons g gs ih =>
    intro hs K r
    have hg : ∀ b ∈ gs, keyLT g b := (List.sorted_cons.1 hs).1
    have hs' : gs.Sorted keyLT := (List.sorted_cons.1 hs).2
    cases K with
    | zero => simp
    | succ K =>
      rw [List.take_succ_cons]
      by_cases hrg : r = g
      · subst hrg
        have hc0 : gs.countP (fun s => decide (keyLT s r)) = 0 :=
          List.countP_eq_zero.2 (fun a ha => by
            simp only [decide_eq_true_eq]
            exact fun hlt => keyLT_asymm (hg a ha) hlt)
        simp [List.countP_cons, hc0, keyLT_irrefl r]
      · have hmemiff : (r ∈ g :: gs.take K) ↔ r ∈ gs.take K := by
          simp [List.mem_cons, hrg]
        rw [hmemiff, ih hs' K r]
        by_cases hmem : r ∈ gs
        · have hglt : keyLT g r := hg r hmem
          rw [List.countP_cons]
          have hd : decide (keyLT g r) = true := by simpa using hglt
          simp only [hd, if_true, List.mem_cons]
          constructor
          · rintro ⟨h1, h2⟩
            exact ⟨Or.inr hmem, by omega⟩
          · rintro ⟨h1, h2⟩
            exact ⟨hmem, by omega⟩
        · constructor
          · rintro ⟨h1, _⟩
            exact absurd h1 hmem
          · rintro ⟨h1, h2⟩
            rcases List.mem_cons.1 h1 with h1 | h1
            · exact absurd h1 hrg
            · exact absurd h1 hmem

theorem mkdirP_files (fs : FS) (p : List String) : (mkdirP fs p).files = fs.files := by
  unfold mkdirP
  split <;> rfl

/-! ### Claim theorems -/

/-- C1: Cluster selection on the filtered table of one split groups the
rows by the composite `cluster_id`, keeps at most `K = max_per_cluster` rows
per cluster, and the kept rows of each cluster are exactly those with the
`K` lexicographically smallest `(resolution, id)` tuples (resolution
ascending first, identifier ascending as the tie-break): a row survives
precisely when fewer than `K` rows of its cluster have a strictly smaller
key.  The surviving identifiers form the split's selected set. -/
theorem cluster_selection_keeps_k_smallest (K : Nat) (f : List Row)
    (hids : f.Pairwise (fun a b => a.id ≠ b.id)) (c : String) :
    ((clusterSelect K f).filter (fun s => s.cluster_id == c)).length ≤ K ∧
    (∀ r ∈ f, r.cluster_id = c →
      (r ∈ clusterSelect K f ↔
        f.countP (fun s => (s.cluster_id == c) && decide (keyLT s r)) < K)) ∧
    selectedIdSet K f = ((clusterSelect K f).map (fun s => s.id)).toFinset := by
  have hperm := sortRows_perm f
  have hsLT := sortRows_sorted_lt f hids
  have hfilter : (clusterSelect K f).filter (fun s => s.cluster_id == c) =
      ((sortRows f).filter (fun s => s.cluster_id == c)).take K := by
    have h := headPerCluster_filter K c (sortRows f) (fun _ => 0)
    simpa [clusterSelect] using h
  refine ⟨?_, ?_, rfl⟩
  · rw [hfilter, List.length_take]
    exact min_le_left _ _
  · intro r hrf hrc
    have hrS : r ∈ sortRows f := hperm.mem_iff.2 hrf
    have h1 : r ∈ clusterSelect K f ↔
        r ∈ (clusterSelect K f).filter (fun s => s.cluster_id == c) := by
      simp [List.mem_filter, hrc]
    rw [h1, hfilter]
    have hG : ((sortRows f).filter (fun s => s.cluster_id == c)).Sorted keyLT :=
      hsLT.filter _
    rw [mem_take_of_sorted _ hG K r]
    have hrG : r ∈ (sortRows f).filter (fun s => s.cluster_id == c) :=
      List.mem_filter.2 ⟨hrS, by simp [hrc]⟩
    simp only [hrG, true_and]
    rw [List.countP_filter]
    rw [hperm.countP_eq (fun s => decide (keyLT s r) && (s.cluster_id == c))]
    have hco : f.countP (fun s => decide (keyLT s r) && (s.cluster_id == c)) =
        f.countP (fun s => (s.cluster_id == c) && decide (keyLT s r)) :=
      List.countP_congr (fun s _ => by rw [Bool.and_comm])
    rw [hco]

/-- C2: A candidate row of the joined table whose ECOD cells are
non-null survives the row-level filter iff the full conjunction holds:
combined length bounded by `max_length`, both monomer lengths within the
per-monomer bounds, label `"BIO"`, method `"X-RAY DIFFRACTION"`, distinct
per-side cluster identifiers, distinct per-side UniProt identifiers, and
disjoint per-side ECOD name sets; and the configuration defaults are
1024 / 512 / 50 (and `max_per_cluster = 2`). -/
theorem row_filter_conjunction (cfg : Config) (r : Row) (sL sR : String)
    (hL : r.ECOD_names_L = some sL) (hR : r.ECOD_names_R = some sR) :
    (rowFilterE cfg r = .ok true ↔
      (r.length1 + r.length2 ≤ cfg.max_length ∧
       r.length1 ≤ cfg.max_length_per_monomer ∧
       r.length2 ≤ cfg.max_length_per_monomer ∧
       cfg.min_length_per_monomer ≤ r.length1 ∧
       cfg.min_length_per_monomer ≤ r.length2 ∧
       r.label = "BIO" ∧
       r.method = "X-RAY DIFFRACTION" ∧
       r.cluster_id_L ≠ r.cluster_id_R ∧
       r.uniprot_R ≠ r.uniprot_L ∧
       ecodSet sR ∩ ecodSet sL = ∅)) ∧
    ({} : Config).max_length = 1024 ∧
    ({} : Config).max_length_per_monomer = 512 ∧
    ({} : Config).min_length_per_monomer = 50 ∧
    ({} : Config).max_per_cluster = 2 := by
  refine ⟨?_, rfl, rfl, rfl, rfl⟩
  unfold rowFilterE
  rw [hR, hL]
  unfold rowPass
  simp only [Except.ok.injEq, Bool.and_eq_true, decide_eq_true_eq, beq_iff_eq,
    bne_iff_ne, and_assoc, ge_iff_le]

/-- Witness for C2 at the concrete row `row1` and default configuration. -/
theorem row_filter_conjunction_witness :
    (row1.ECOD_names_L = some "d1,d2" ∧ row1.ECOD_names_R = some "d3") ∧
    ((rowFilterE {} row1 = .ok true ↔
      (row1.length1 + row1.length2 ≤ ({} : Config).max_length ∧
       row1.length1 ≤ ({} : Config).max_length_per_monomer ∧
       row1.length2 ≤ ({} : Config).max_length_per_monomer ∧
       ({} : Config).min_length_per_monomer ≤ row1.length1 ∧
       ({} : Config).min_length_per_monomer ≤ row1.length2 ∧
       row1.label = "BIO" ∧
       row1.method = "X-RAY DIFFRACTION" ∧
       row1.cluster_id_L ≠ row1.cluster_id_R ∧
       row1.uniprot_R ≠ row1.uniprot_L ∧
       ecodSet "d3" ∩ ecodSet "d1,d2" = ∅)) ∧
     ({} : Config).max_length = 1024 ∧
     ({} : Config).max_length_per_monomer = 512 ∧
     ({} : Config).min_length_per_monomer = 50 ∧
     ({} : Config).max_per_cluster = 2) :=
  ⟨⟨rfl, rfl⟩, row_filter_conjunction {} row1 "d1,d2" "d3" rfl rfl⟩

/-- Witness for C1 on a concrete four-row filtered table: cluster `"C1"`
holds rows `A` (resolution 2), `B` (resolution 1), `C` (resolution 3), so
with `K = 2` exactly `B` and `A` survive for it, and `D` survives for
cluster `"C2"`. -/
theorem cluster_selection_keeps_k_smallest_witness :
    ([row1, row2, row3, row4].Pairwise (fun a b => a.id ≠ b.id)) ∧
    (((clusterSelect 2 [row1, row2, row3, row4]).filter
        (fun s => s.cluster_id == "C1")).length ≤ 2 ∧
     (∀ r ∈ [row1, row2, row3, row4], r.cluster_id = "C1" →
       (r ∈ clusterSelect 2 [row1, row2, row3, row4] ↔
         [row1, row2, row3, row4].countP
           (fun s => (s.cluster_id == "C1") && decide (keyLT s r)) < 2)) ∧
     selectedIdSet 2 [row1, row2, row3, row4] =
       ((clusterSelect 2 [row1, row2, row3, row4]).map (fun s => s.id)).toFinset) :=
  ⟨by decide,
   cluster_selection_keeps_k_smallest 2 [row1, row2, row3, row4] (by decide) "C1"⟩

/-- C8: Selection is deterministic: on two tables holding the same rows
(in any order) with unique identifiers, and the same configuration,
`select_ids` produces the identical selected identifier set for the split
(and the identical error behaviour). -/
theorem selection_order_independent (cfg : Config) (tbl1 tbl2 : List Row)
    (hperm : List.Perm tbl1 tbl2)
    (hids : tbl1.Pairwise (fun a b => a.id ≠ b.id)) :
    selectIds cfg tbl1 = selectIds cfg tbl2 := by
  have hany : tbl1.any ecodBad = tbl2.any ecodBad := by
    have hiff : (tbl1.any ecodBad = true) ↔ (tbl2.any ecodBad = true) := by
      simp only [List.any_eq_true]
      constructor
      · rintro ⟨x, hx, hb⟩
        exact ⟨x, hperm.mem_iff.1 hx, hb⟩
      · rintro ⟨x, hx, hb⟩
        exact ⟨x, hperm.mem_iff.2 hx, hb⟩
    cases e1 : tbl1.any ecodBad <;> cases e2 : tbl2.any ecodBad
    · rfl
    · exact absurd (hiff.2 e2) (by simp [e1])
    · exact absurd (hiff.1 e1) (by simp [e2])
    · rfl
  unfold selectIds
  rw [filterTable_eq, filterTable_eq, hany]
  by_cases h : tbl2.any ecodBad = true
  · rw [if_pos h, if_pos h]
  · have h' : tbl2.any ecodBad = false := by simpa using h
    rw [h', if_neg (by simp), if_neg (by simp)]
    have hpermF : List.Perm (tbl1.filter (okRow cfg)) (tbl2.filter (okRow cfg)) :=
      hperm.filter _
    have hidsF : (tbl1.filter (okRow cfg)).Pairwise (fun a b => a.id ≠ b.id) :=
      hids.sublist (List.filter_sublist tbl1)
    have hidsF2 : (tbl2.filter (okRow cfg)).Pairwise (fun a b => a.id ≠ b.id) :=
      (hpermF.pairwise_iff (fun hne => hne.symm)).1 hidsF
    have hsortEq : sortRows (tbl1.filter (okRow cfg)) = sortRows (tbl2.filter (okRow cfg)) := by
      refine List.eq_of_perm_of_sorted ?_ (sortRows_sorted_lt _ hidsF)
        (sortRows_sorted_lt _ hidsF2)
      exact (sortRows_perm _).trans (hpermF.trans (sortRows_perm _).symm)
    have hsel : selectedIdSet cfg.max_per_cluster (tbl1.filter (okRow cfg)) =
        selectedIdSet cfg.max_per_cluster (tbl2.filter (okRow cfg)) := by
      unfold selectedIdSet clusterSelect
      rw [hsortEq]
    show Except.ok (selectedIdSet cfg.max_per_cluster (tbl1.filter (okRow cfg))) =
      Except.ok (selectedIdSet cfg.max_per_cluster (tbl2.filter (okRow cfg)))
    rw [hsel]

/-- Witness for C8: two orderings of the same three-row table select the
same identifier set. -/
theorem selection_order_independent_witness :
    (List.Perm [row1, row2, row4] [row4, row1, row2] ∧
      [row1, row2, row4].Pairwise (fun a b => a.id ≠ b.id)) ∧
    selectIds {} [row1, row2, row4] = selectIds {} [row4, row1, row2] :=
  ⟨⟨by decide, by decide⟩,
   selection_order_independent {} [row1, row2, row4] [row4, row1, row2]
     (by decide) (by decide)⟩

/-- Counterexample to C4: on a table holding a passing row and a row with a
null left ECOD cell, the filter pass raises instead of dropping the
malformed candidate and keeping the passing one (which it does keep when
the malformed row is absent). -/
theorem null_ecod_aborts_cex :
    filterTable {} [row1, rowNull] = .error () ∧
    rowFilterE {} row1 = .ok true ∧
    filterTable {} [row1] = .ok [row1] ∧
    filterTable {} [row1, rowNull] ≠ .ok [row1] := by
  refine ⟨by decide, by decide, by decide, ?_⟩
  intro h
  rw [show filterTable {} [row1, rowNull] = .error () from by decide] at h
  exact Except.noConfusion h

/-- C4 amended: A candidate with a malformed predicate input (a null
ECOD cell on either side) does not get dropped individually: building the
domain-overlap mask raises, so the whole filter pass for the split aborts
with an error and no candidates at all are returned. -/
theorem null_ecod_aborts (cfg : Config) (tbl : List Row) (r : Row)
    (hmem : r ∈ tbl)
    (hnull : r.ECOD_names_L = none ∨ r.ECOD_names_R = none) :
    filterTable cfg tbl = .error () := by
  rw [filterTable_eq]
  have hbad : ecodBad r = true := by
    unfold ecodBad
    rcases hnull with h | h <;> simp [h]
  rw [if_pos (List.any_eq_true.2 ⟨r, hmem, hbad⟩)]

/-- Witness for the amended C4 at a concrete two-row table. -/
theorem null_ecod_aborts_witness :
    (rowNull ∈ [row1, rowNull] ∧
      (rowNull.ECOD_names_L = none ∨ rowNull.ECOD_names_R = none)) ∧
    filterTable {} [row1, rowNull] = .error () :=
  ⟨⟨by decide, Or.inl rfl⟩,
   null_ecod_aborts {} [row1, rowNull] rowNull (by decide) (Or.inl rfl)⟩

theorem mk0_pinder_id_ne (a b : PStructure) : (mk0 a b).pinder_id ≠ "" := by
  unfold mk0
  intro h
  have hd := congrArg String.data h
  simp [String.data_append] at hd

/-- C3: For every task: the native complex is always written; if either
predicted substructure is `None`, `save_system` returns right after the
native write with a row carrying no predicted output identifier and no
predicted file on disk (a non-fatal early return, not an error); if both
are present, the predicted complex is assembled and written and the row
carries its (non-empty) identifier.  The assembly capability is assumed to
derive non-empty identifiers. -/
theorem save_system_predicted_branches (mk : PStructure → PStructure → PStructure)
    (sys : PinderSystem) (folder : List String) (fs : FS)
    (hmk : ∀ a b, (mk a b).pinder_id ≠ "") :
    ∃ res, save_system mk sys folder fs = .ok res ∧
      ((sys.pred_receptor = none ∨ sys.pred_ligand = none) →
        res.row.pred_pinder_id = none ∧
        res.fs.files = insert (nativePdbPath mk sys folder) fs.files) ∧
      (∀ a b, sys.pred_receptor = some a → sys.pred_ligand = some b →
        ∃ pid, res.row.pred_pinder_id = some pid ∧ pid ≠ "" ∧
          res.fs.files =
            insert (folder ++ [sys.native.pinder_id] ++ [pid ++ ".pdb"])
              (insert (nativePdbPath mk sys folder) fs.files)) := by
  refine ⟨saveResultOf mk sys folder fs, save_system_run mk sys folder fs, ?_, ?_⟩
  · intro h
    unfold saveResultOf
    rcases h1 : sys.pred_receptor with _ | c1
    · simp only [h1]
      exact ⟨by simp, by simp [to_pdb, nativePdbPath, mkdirP_files]⟩
    · rcases h2 : sys.pred_ligand with _ | c2
      · simp only [h1, h2]
        exact ⟨by simp, by simp [to_pdb, nativePdbPath, mkdirP_files]⟩
      · rcases h with h | h
        · rw [h1] at h
          exact absurd h (by simp)
        · rw [h2] at h
          exact absurd h (by simp)
  · intro a b ha hb
    refine ⟨(mk (removeH a) (removeH b)).pinder_id, ?_, hmk _ _, ?_⟩
    · unfold saveResultOf
      simp [ha, hb]
    · unfold saveResultOf
      simp [ha, hb, to_pdb, nativePdbPath, mkdirP_files]

/-- Witness for C3 at a concrete system missing the predicted ligand, with
the concatenating assembly oracle. -/
theorem save_system_predicted_branches_witness :
    (∀ a b, (mk0 a b).pinder_id ≠ "") ∧
    ∃ res, save_system mk0 sysNoPredL ["hackathon_data", "train"] fs0 = .ok res ∧
      ((sysNoPredL.pred_receptor = none ∨ sysNoPredL.pred_ligand = none) →
        res.row.pred_pinder_id = none ∧
        res.fs.files =
          insert (nativePdbPath mk0 sysNoPredL ["hackathon_data", "train"]) fs0.files) ∧
      (∀ a b, sysNoPredL.pred_receptor = some a → sysNoPredL.pred_ligand = some b →
        ∃ pid, res.row.pred_pinder_id = some pid ∧ pid ≠ "" ∧
          res.fs.files =
            insert (["hackathon_data", "train"] ++ [sysNoPredL.native.pinder_id] ++
                [pid ++ ".pdb"])
              (insert (nativePdbPath mk0 sysNoPredL ["hackathon_data", "train"])
                fs0.files)) :=
  ⟨mk0_pinder_id_ne, save_system_predicted_branches mk0 sysNoPredL
      ["hackathon_data", "train"] fs0 mk0_pinder_id_ne⟩

/-- C10: When the predicted receptor is present but the predicted
ligand is absent, `save_system` still dehydrogenates the predicted receptor
in place (`filter(..., copy=False)`) before returning the native-only row:
the loaded system object is left with its predicted receptor modified even
though no predicted complex is assembled or written. -/
theorem pred_receptor_mutated_when_ligand_absent
    (mk : PStructure → PStructure → PStructure) (sys : PinderSystem)
    (folder : List String) (fs : FS) (r : PStructure)
    (hr : sys.pred_receptor = some r) (hl : sys.pred_ligand = none) :
    ∃ res, save_system mk sys folder fs = .ok res ∧
      res.system.pred_receptor = some (removeH r) ∧
      res.row.pred_pinder_id = none ∧
      res.fs.files = insert (nativePdbPath mk sys folder) fs.files := by
  refine ⟨saveResultOf mk sys folder fs, save_system_run mk sys folder fs, ?_⟩
  unfold saveResultOf
  simp [hr, hl, to_pdb, nativePdbPath, mkdirP_files]

/-- Witness for C10 at the concrete system missing only the predicted
ligand: the predicted receptor loses its hydrogen atoms. -/
theorem pred_receptor_mutated_when_ligand_absent_witness :
    (sysNoPredL.pred_receptor = some { pinder_id := "PR", atoms := ["C", "H"] } ∧
      sysNoPredL.pred_ligand = none) ∧
    ∃ res, save_system mk0 sysNoPredL ["hackathon_data", "train"] fs0 = .ok res ∧
      res.system.pred_receptor =
        some (removeH { pinder_id := "PR", atoms := ["C", "H"] }) ∧
      res.row.pred_pinder_id = none ∧
      res.fs.files =
        insert (nativePdbPath mk0 sysNoPredL ["hackathon_data", "train"]) fs0.files :=
  ⟨⟨rfl, rfl⟩,
   pred_receptor_mutated_when_ligand_absent mk0 sysNoPredL
     ["hackathon_data", "train"] fs0 _ rfl rfl⟩

/-- Counterexample to C7: for a concrete system (candidate identifier
`"cand1"`, assembled native complex identifier `"R--L"`), the produced
manifest row holds only the candidate identifier — the native complex's
assigned output identifier `"R--L"` is recorded in no field of the row, so
the row does not carry a native-output-id column distinct from the
candidate identifier. -/
theorem manifest_row_schema_cex :
    savedRowValues mk0 sysNoPred ["hackathon_data", "train"] fs0 = ["cand1"] ∧
    (mk0 (removeH sysNoPred.holo_receptor)
      (removeH sysNoPred.holo_ligand)).pinder_id = "R--L" ∧
    "R--L" ∉ savedRowValues mk0 sysNoPred ["hackathon_data", "train"] fs0 ∧
    "R--L" ≠ "cand1" := by
  refine ⟨by decide, by decide, ?_, by decide⟩
  rw [show savedRowValues mk0 sysNoPred ["hackathon_data", "train"] fs0 = ["cand1"]
    from by decide]
  decide

/-- C7 amended: Every result row has the fixed schema
`(pinder_id, optional pred_pinder_id, optional split)`: `pinder_id` holds
the loaded system's native identifier (the candidate identifier) and
doubles as the row's only identifier for the native result; the native
complex's own assembled output identifier is not a row field — it only
names the file written to disk. -/
theorem manifest_row_schema (mk : PStructure → PStructure → PStructure)
    (sys : PinderSystem) (folder : List String) (fs : FS) :
    ∃ res, save_system mk sys folder fs = .ok res ∧
      res.row.pinder_id = sys.native.pinder_id ∧
      res.row.split = none ∧
      nativePdbPath mk sys folder ∈ res.fs.files ∧
      rowValues res.row = [sys.native.pinder_id] ++ res.row.pred_pinder_id.toList := by
  refine ⟨saveResultOf mk sys folder fs, save_system_run mk sys folder fs, ?_⟩
  unfold saveResultOf
  rcases h1 : sys.pred_receptor with _ | c1
  · simp [to_pdb, nativePdbPath, rowValues]
  · rcases h2 : sys.pred_ligand with _ | c2 <;>
      simp [to_pdb, nativePdbPath, rowValues]

/-- C9: Creating the per-candidate output directory with
`mkdir(parents=True, exist_ok=True)` when the path already exists — e.g.
created first by a concurrently running sibling task — raises no error and
leaves the filesystem unchanged; on any filesystem the call succeeds and
afterwards the directory exists (idempotent create-if-absent), and the
enclosing `save_system` call does not raise either. -/
theorem mkdir_existing_dir_ok (mk : PStructure → PStructure → PStructure)
    (sys : PinderSystem) (folder : List String) (fs : FS)
    (hp : folder ++ [sys.native.pinder_id] ∈ fs.dirs) :
    mkdir true true fs (folder ++ [sys.native.pinder_id]) = .ok fs ∧
    (∀ fs₂ : FS, ∃ fs', mkdir true true fs₂ (folder ++ [sys.native.pinder_id]) = .ok fs' ∧
      folder ++ [sys.native.pinder_id] ∈ fs'.dirs) ∧
    ∃ res, save_system mk sys folder fs = .ok res := by
  refine ⟨?_, ?_, ⟨saveResultOf mk sys folder fs, save_system_run mk sys folder fs⟩⟩
  · rw [mkdir_parents_exist_ok]
    unfold mkdirP
    rw [if_pos hp]
  · intro fs₂
    refine ⟨mkdirP fs₂ (folder ++ [sys.native.pinder_id]),
      mkdir_parents_exist_ok fs₂ (folder ++ [sys.native.pinder_id]), ?_⟩
    unfold mkdirP
    split
    · assumption
    · have hpre : folder ++ [sys.native.pinder_id] ∈
          (folder ++ [sys.native.pinder_id]).inits := by
        rw [List.mem_inits]
      have hne : folder ++ [sys.native.pinder_id] ≠ [] := by simp
      simp only [Finset.mem_union, List.mem_toFinset, List.mem_filter]
      exact Or.inr (by simp [List.mem_filter, hpre, hne])

/-- Witness for C9: the candidate directory is already present in the
filesystem, and the call is still a no-op success. -/
theorem mkdir_existing_dir_ok_witness :
    (["hackathon_data", "train"] ++ [sysNoPred.native.pinder_id] ∈
      (FS.mk {["hackathon_data", "train", "cand1"]} ∅).dirs) ∧
    (mkdir true true (FS.mk {["hackathon_data", "train", "cand1"]} ∅)
        (["hackathon_data", "train"] ++ [sysNoPred.native.pinder_id]) =
      .ok (FS.mk {["hackathon_data", "train", "cand1"]} ∅) ∧
    (∀ fs₂ : FS, ∃ fs', mkdir true true fs₂
        (["hackathon_data", "train"] ++ [sysNoPred.native.pinder_id]) = .ok fs' ∧
      ["hackathon_data", "train"] ++ [sysNoPred.native.pinder_id] ∈ fs'.dirs) ∧
    ∃ res, save_system mk0 sysNoPred ["hackathon_data", "train"]
        (FS.mk {["hackathon_data", "train", "cand1"]} ∅) = .ok res) :=
  ⟨by decide,
   mkdir_existing_dir_ok mk0 sysNoPred ["hackathon_data", "train"]
     (FS.mk {["hackathon_data", "train", "cand1"]} ∅) (by decide)⟩

/-- Counterexample to C5: with a loading capability that raises for the
single dispatched task, the pool collection re-raises the exception instead
of recording a failed row — no manifest list is produced at all. -/
theorem worker_exception_aborts_cex :
    imapCollect (process_id loadBoom mk0 fs0 ["hackathon_data"]) [task1] =
      .error "boom" ∧
    ¬ ∃ rows, imapCollect (process_id loadBoom mk0 fs0 ["hackathon_data"]) [task1] =
      .ok rows := by
  refine ⟨by decide, ?_⟩
  rintro ⟨rows, h⟩
  rw [show imapCollect (process_id loadBoom mk0 fs0 ["hackathon_data"]) [task1] =
    .error "boom" from by decide] at h
  exact Except.noConfusion h

/-- C5 amended: A worker exception is not captured as a failed row:
the pool's result collection succeeds (producing the manifest rows) iff
every task succeeds, and a single failing task makes the whole collection —
and hence the run, before any manifest is written — abort with that
exception. -/
theorem worker_exception_propagates (f : Task → Except String RowOut)
    (tasks : List Task) :
    (∃ rows, imapCollect f tasks = .ok rows) ↔ (∀ t ∈ tasks, ∃ r, f t = .ok r) := by
  induction tasks with
  | nil => simp [imapCollect]
  | cons t ts ih =>
    constructor
    · rintro ⟨rows, h⟩
      unfold imapCollect at h
      cases hf : f t with
      | error e =>
        rw [hf] at h
        simp [bind, Except.bind] at h
      | ok r =>
        rw [hf] at h
        simp only [bind, Except.bind] at h
        cases hrest : imapCollect f ts with
        | error e =>
          rw [hrest] at h
          simp at h
        | ok rs =>
          intro t' ht'
          rcases List.mem_cons.1 ht' with rfl | ht'
          · exact ⟨r, hf⟩
          · exact (ih.1 ⟨rs, hrest⟩) t' ht'
    · intro hall
      obtain ⟨r, hr⟩ := hall t (List.mem_cons_self t ts)
      obtain ⟨rs, hrs⟩ := ih.2 (fun t' ht' => hall t' (List.mem_cons_of_mem t ht'))
      exact ⟨r :: rs, by simp [imapCollect, bind, Except.bind, hr, hrs, pure, Except.pure]⟩

theorem imapCollect_ok (f : Task → Except String RowOut) :
    ∀ (tasks : List Task) (rows : List RowOut),
      imapCollect f tasks = .ok rows →
      rows.length = tasks.length ∧
      ∀ i (hi : i < tasks.length) (hj : i < rows.length),
        f (tasks.get ⟨i, hi⟩) = .ok (rows.get ⟨i, hj⟩) := by
  intro tasks
  induction tasks with
  | nil =>
    intro rows h
    simp only [imapCollect] at h
    have : ([] : List RowOut) = rows := by injection h
    subst this
    exact ⟨rfl, fun i hi => absurd hi (by simp)⟩
  | cons t ts ih =>
    intro rows h
    unfold imapCollect at h
    cases hf : f t with
    | error e =>
      rw [hf] at h
      simp [bind, Except.bind] at h
    | ok r =>
      rw [hf] at h
      simp only [bind, Except.bind] at h
      cases hrest : imapCollect f ts with
      | error e =>
        rw [hrest] at h
        simp at h
      | ok rs =>
        rw [hrest] at h
        simp only [pure, Except.pure] at h
        have : r :: rs = rows := by injection h
        subst this
        obtain ⟨hlen, hidx⟩ := ih rs hrest
        refine ⟨by simp [hlen], ?_⟩
        intro i hi hj
        cases i with
        | zero => simpa using hf
        | succ n =>
          simpa using hidx n (by simpa using hi) (by simpa using hj)

theorem saveResultOf_row (mk : PStructure → PStructure → PStructure)
    (sys : PinderSystem) (folder : List String) (fs : FS) :
    (saveResultOf mk sys folder fs).row.pinder_id = sys.native.pinder_id ∧
    (saveResultOf mk sys folder fs).row.split = none := by
  unfold saveResultOf
  rcases h1 : sys.pred_receptor with _ | c1
  · simp
  · rcases h2 : sys.pred_ligand with _ | c2 <;> simp

theorem process_id_row (load : String → Except String PinderSystem)
    (mk : PStructure → PStructure → PStructure) (fs : FS)
    (data_dir : List String) (t : Task) (r : RowOut)
    (hload : ∀ i sys, load i = .ok sys → sys.native.pinder_id = i)
    (h : process_id load mk fs data_dir t = .ok r) :
    r.pinder_id = t.id ∧ r.split = some t.key := by
  unfold process_id at h
  cases hl : load t.id with
  | error e =>
    rw [hl] at h
    simp [bind, Except.bind] at h
  | ok sys =>
    rw [hl] at h
    simp only [bind, Except.bind, save_system_run, pure, Except.pure] at h
    have hrow : { (saveResultOf mk sys (data_dir ++ [t.key]) fs).row with
        split := some t.key } = r := by injection h
    subst hrow
    exact ⟨(saveResultOf_row mk sys (data_dir ++ [t.key]) fs).1.trans
      (hload t.id sys hl), rfl⟩

/-- C6: For every run of the pool that completes, the collected
manifest rows are in 1:1 correspondence with the dispatched tasks (one row
per selected identifier per split, predicted complex present or not): there
are exactly as many rows as tasks, and the `i`-th row carries the `i`-th
task's candidate identifier and split name.  (`pool.imap` yields results in
task order regardless of completion order, so the correspondence is
positional.) -/
theorem manifest_one_row_per_task (load : String → Except String PinderSystem)
    (mk : PStructure → PStructure → PStructure) (fs : FS)
    (data_dir : List String) (split_ids : List (String × List String))
    (rows : List RowOut)
    (hload : ∀ i sys, load i = .ok sys → sys.native.pinder_id = i)
    (hrun : imapCollect (process_id load mk fs data_dir) (tasksOf split_ids) =
      .ok rows) :
    rows.length = (tasksOf split_ids).length ∧
    ∀ i (hi : i < (tasksOf split_ids).length) (hj : i < rows.length),
      (rows.get ⟨i, hj⟩).pinder_id = ((tasksOf split_ids).get ⟨i, hi⟩).id ∧
      (rows.get ⟨i, hj⟩).split = some ((tasksOf split_ids).get ⟨i, hi⟩).key := by
  obtain ⟨hlen, hidx⟩ := imapCollect_ok _ _ _ hrun
  exact ⟨hlen, fun i hi hj =>
    process_id_row load mk fs data_dir _ _ hload (hidx i hi hj)⟩

/-- Witness for C6 at a concrete completing run: two splits, three tasks,
three rows, each carrying its task's identifier and split. -/
theorem manifest_one_row_per_task_witness :
    (imapCollect (process_id load0 mk0 fs0 ["hackathon_data"]) (tasksOf splitIds0) =
      .ok rows0) ∧
    rows0.length = (tasksOf splitIds0).length ∧
    ∀ i (hi : i < (tasksOf splitIds0).length) (hj : i < rows0.length),
      (rows0.get ⟨i, hj⟩).pinder_id = ((tasksOf splitIds0).get ⟨i, hi⟩).id ∧
      (rows0.get ⟨i, hj⟩).split = some ((tasksOf splitIds0).get ⟨i, hi⟩).key :=
  ⟨by decide,
   manifest_one_row_per_task load0 mk0 fs0 ["hackathon_data"] splitIds0 rows0
     (fun i sys h => by
       injection h with h'
       rw [← h'])
     (by decide)⟩

end MakeDataset
